import Mathlib

/-!
Verification of the nmdc-runtime core excerpt: the study → data-object graph
traversal (api/endpoints/find.py), the DRS registration pipeline
(site/drsobjects/registration.py) and the descriptor builder (util.py),
as a shallow embedding in Lean.  Python dicts are embedded as ordered
association lists, fallible Python code (exceptions) as Except values,
and the unbounded while loop of the traversal as a fuel-indexed loop
(a result of Option.none means the fuel bound was exhausted, i.e. the
Python loop has not terminated within that many iterations).
-/

/-- Python exceptions that the embedded code can raise. -/
inductive PyExc where
  | indexError
  | keyError
  | attributeError
  | requestsTimeout
  | notFound404
  deriving DecidableEq

/-- First-match lookup in an ordered association list (Python dict lookup;
dicts built by this code keep keys unique, so first match equals dict lookup). -/
def dlookup {α : Type} : List (String × α) → String → Option α
  | [], _ => none
  | (k2, v) :: t, k => if k2 = k then some v else dlookup t k

/-- In-place update of the value stored at an existing key (Python d[k] = v
when k is already a key of d): every pair with that key is rewritten, other
pairs and the order are untouched. -/
def dset {α : Type} : List (String × α) → String → α → List (String × α)
  | [], _, _ => []
  | (k2, w) :: t, k, v =>
    if k2 = k then (k, v) :: dset t k v else (k2, w) :: dset t k v

/-- Deletion of a key (Python del d[k]): every pair with that key is
removed, other pairs and the order are untouched. -/
def ddel {α : Type} : List (String × α) → String → List (String × α)
  | [], _ => []
  | (k2, w) :: t, k =>
    if k2 = k then ddel t k else (k2, w) :: ddel t k

/-- Python str.split with a one-character separator, over the character
list: splitting never yields an empty list of groups, and an input without
the separator yields the single group equal to the input.  (Defined by
structural recursion so that concrete runs reduce inside the kernel; the
library splitOn does not.) -/
def splitChar (c : Char) : List Char → List (List Char)
  | [] => [[]]
  | x :: xs =>
    match splitChar c xs with
    | g :: gs => if x = c then [] :: g :: gs else (x :: g) :: gs
    | [] => [[x]]

/-- Python s.split(c) for a one-character separator c, as Strings. -/
def pySplit (c : Char) (s : String) : List String :=
  (splitChar c s.data).map String.mk

/-- Python s.replace(a, b) for one-character a and b. -/
def pyReplaceChar (a b : Char) (s : String) : String :=
  ⟨s.data.map (fun ch => if ch = a then b else ch)⟩

/-- One entry of the typecode registry: Python dict with keys name and
schema_class (e.g. name "sty", schema_class "nmdc:Study"). -/
structure TypecodeEntry where
  name : String
  schema_class : String
  deriving DecidableEq

/-- The dict comprehension of find.py lines 123-125:
entry["name"] maps to entry["schema_class"].split(":")[1].  Python raises
IndexError when a schema_class value has no ":".  The resulting Python dict
gives later duplicate keys precedence, which dict_get_last mirrors. -/
def build_class_map : List TypecodeEntry → Except PyExc (List (String × String))
  | [] => .ok []
  | e :: rest =>
    match (pySplit ':' e.schema_class)[1]? with
    | none => .error .indexError
    | some c =>
      match build_class_map rest with
      | .error err => .error err
      | .ok m => .ok ((e.name, c) :: m)

/-- Lookup in a Python dict built by a comprehension with possibly duplicate
keys: the last binding wins. -/
def dict_get_last (m : List (String × String)) (k : String) : Option String :=
  ((m.filter (fun p => p.1 = k)).getLast?).map (fun p => p.2)

/-- Embedding of get_classname_from_typecode (find.py lines 114-126).
typecode := doc_id.split(":")[1].split("-")[0]; Python raises IndexError when
doc_id has no ":" (split(":") then yields a single element and index 1 is out
of range), which the .error value records.  The typecode table is a parameter
(the registry lives outside the excerpt). -/
def get_classname_from_typecode (table : List TypecodeEntry) (doc_id : String) :
    Except PyExc (Option String) :=
  match (pySplit ':' doc_id)[1]? with
  | none => .error .indexError
  | some seg =>
    let typecode := (pySplit '-' seg).headD ""
    match build_class_map table with
    | .error err => .error err
    | .ok class_map => .ok (dict_get_last class_map typecode)

/-- Specification-side description of the table lookup: the class part of the
schema_class of the last registry entry whose name equals the typecode. -/
def table_class_of (table : List TypecodeEntry) (tcode : String) : Option String :=
  ((table.filter (fun e => e.name = tcode)).getLast?).map
    (fun e => ((pySplit ':' e.schema_class)[1]?).getD "")

/-- The typecode a given id carries, as the code computes it: the token
between the first and second ":" truncated at the first "-". -/
def typecode_of (doc_id : String) : String :=
  (pySplit '-' (((pySplit ':' doc_id)[1]?).getD "")).headD ""

/-! ## The descriptor builder (util.py, drs_metadata_for) -/

/-- One checksum record: Python dict with keys type and checksum. -/
structure Checksum where
  type : String
  checksum : String
  deriving DecidableEq

/-- One access method.  The Python value is a nested dict
(access_url holding url); only the url matters here. -/
structure AccessMethod where
  url : String
  deriving DecidableEq

/-- A DRS metadata dict under construction.  Each field of interest is an
Option whose none means the key is absent from the dict.  mime_type is
doubly optional because Python stores the possibly-None result of
mimetypes.guess_type under the key, so the key can be present with value
None.  extra stands for any further caller-supplied keys. -/
structure DrsBase where
  size : Option Nat := none
  created_time : Option Int := none
  checksums : Option (List Checksum) := none
  mime_type : Option (Option String) := none
  name : Option String := none
  access_methods : Option (List AccessMethod) := none
  extra : List (String × String) := []
  deriving DecidableEq

/-- The filesystem metadata oracle: os.path.getsize, os.path.getctime,
sha256hash_from and mimetypes.guess_type as abstract functions of the path. -/
structure FileMeta where
  getsize : String → Nat
  getctime : String → Int
  sha256 : String → String
  guess_type : String → Option String

/-- Python Path(filepath).name: the final path component. -/
def pathName (p : String) : String :=
  (pySplit '/' p).getLastD ""

/-- Embedding of drs_metadata_for (util.py lines 39-57): fills, in order,
size, created_time, checksums, mime_type and name, each only when the key is
not already present in the caller-supplied base dict. -/
def drs_metadata_for (fm : FileMeta) (filepath : String) (base : DrsBase) : DrsBase :=
  let b1 := if base.size.isNone then { base with size := some (fm.getsize filepath) } else base
  let b2 := if b1.created_time.isNone then
      { b1 with created_time := some (fm.getctime filepath) } else b1
  let b3 := if b2.checksums.isNone then
      { b2 with checksums := some [⟨"sha-256", fm.sha256 filepath⟩] } else b2
  let b4 := if b3.mime_type.isNone then
      { b3 with mime_type := some (fm.guess_type filepath) } else b3
  if b4.name.isNone then { b4 with name := some (pathName filepath) } else b4

/-! ## The document store and the study traversal (find.py lines 133-191) -/

/-- A study_set document (only the id field is used by the traversal). -/
structure StudyDoc where
  id : String
  deriving DecidableEq

/-- A biosample_set document: id plus the part_of list of study ids. -/
structure BiosampleDoc where
  id : String
  part_of : List String
  deriving DecidableEq

/-- A data_object_set document.  strip_oid removes the Mongo-internal _id
field, which this embedding does not carry, so strip_oid is the identity;
the name field stands for the rest of the record, so that collecting a full
document is distinguishable from collecting an id. -/
structure DataObjectDoc where
  id : String
  name : String
  deriving DecidableEq

/-- An alldocs document as the traversal sees it: the has_input and
has_output id lists.  A missing has_output is embedded as the empty list
(Python treats None and [] the same via "if not has_output"). -/
structure AllDoc where
  has_input : List String
  has_output : List String
  deriving DecidableEq

/-- The document store: one list per collection, in natural (insertion)
order; find_one returns the first match. -/
structure MDB where
  study_set : List StudyDoc
  biosample_set : List BiosampleDoc
  data_object_set : List DataObjectDoc
  alldocs : List AllDoc
  deriving DecidableEq

/-- The inner for-loop over document["has_output"] (find.py lines 171-179):
each output id is classified; DataObject outputs whose document exists are
appended to the collected list, every other output id (including unknown
typecodes, whose classification None compares unequal to "DataObject") is
appended to new_current_ids.  The state is (new_current_ids, collected). -/
def processOutputs (db : MDB) (tbl : List TypecodeEntry) :
    List String → List String × List DataObjectDoc →
    Except PyExc (List String × List DataObjectDoc)
  | [], st => .ok st
  | o :: rest, st =>
    match get_classname_from_typecode tbl o with
    | .error e => .error e
    | .ok cls =>
      if cls = some "DataObject" then
        match db.data_object_set.find? (fun d => d.id = o) with
        | some d => processOutputs db tbl rest (st.1, st.2 ++ [d])
        | none => processOutputs db tbl rest st
      else
        processOutputs db tbl rest (st.1 ++ [o], st.2)

/-- The for-loop over current_ids at one BFS level (find.py lines 160-179):
alldocs.find_one with filter has_input = current_id returns the first alldocs
document whose has_input contains the id; absent document or empty
has_output skips the id. -/
def stepIds (db : MDB) (tbl : List TypecodeEntry) :
    List String → List String × List DataObjectDoc →
    Except PyExc (List String × List DataObjectDoc)
  | [], st => .ok st
  | cid :: rest, st =>
    match db.alldocs.find? (fun d => d.has_input.contains cid) with
    | none => stepIds db tbl rest st
    | some doc =>
      if doc.has_output.isEmpty then stepIds db tbl rest st
      else
        match processOutputs db tbl doc.has_output st with
        | .error e => .error e
        | .ok st2 => stepIds db tbl rest st2

/-- The unbounded while-loop (find.py lines 158-181), indexed by fuel: each
unit of fuel pays for one loop iteration over a non-empty frontier.  A result
of .ok none means the fuel ran out, i.e. the Python loop was still running
after that many iterations; the source has no iteration bound of its own. -/
def collectLoop (db : MDB) (tbl : List TypecodeEntry) :
    Nat → List String → List DataObjectDoc →
    Except PyExc (Option (List DataObjectDoc))
  | fuel, current, acc =>
    if current.isEmpty then .ok (some acc)
    else
      match fuel with
      | 0 => .ok none
      | f + 1 =>
        match stepIds db tbl current ([], acc) with
        | .error e => .error e
        | .ok (newIds, acc2) => collectLoop db tbl f newIds acc2

/-- A value in a result entry dict: either the biosample id string or the
list of collected data-object documents. -/
inductive EntryVal where
  | s (v : String)
  | docs (v : List DataObjectDoc)
  deriving DecidableEq

/-- One result entry as built at find.py lines 184-189: a dict with the keys
biosample_id and data_object_set, embedded with its keys as data. -/
abbrev Entry := List (String × EntryVal)

/-- The dict literal of find.py lines 185-188. -/
def mkEntry (b : String) (objs : List DataObjectDoc) : Entry :=
  [("biosample_id", EntryVal.s b), ("data_object_set", EntryVal.docs objs)]

/-- The for-loop over biosample_ids (find.py lines 154-189), carrying the
accumulated biosample_data_objects list; a biosample contributes an entry
only when its collected list is non-empty. -/
def biosampleLoop (db : MDB) (tbl : List TypecodeEntry) (fuel : Nat) :
    List String → List Entry → Except PyExc (Option (List Entry))
  | [], acc => .ok (some acc)
  | b :: rest, acc =>
    match collectLoop db tbl fuel [b] [] with
    | .error e => .error e
    | .ok none => .ok none
    | .ok (some objs) =>
      biosampleLoop db tbl fuel rest
        (if objs.isEmpty then acc else acc ++ [mkEntry b objs])

/-- The biosample lookup of find.py lines 151-152: ids of biosamples whose
part_of contains the study id, in collection order. -/
def biosampleIdsOf (db : MDB) (st : StudyDoc) : List String :=
  (db.biosample_set.filter (fun b => b.part_of.contains st.id)).map (fun b => b.id)

/-- Embedding of find_data_objects_for_study (find.py lines 133-191).
raise404_if_none on a missing study becomes the notFound404 error. -/
def find_data_objects_for_study (db : MDB) (tbl : List TypecodeEntry)
    (fuel : Nat) (study_id : String) : Except PyExc (Option (List Entry)) :=
  match db.study_set.find? (fun s => s.id = study_id) with
  | none => .error .notFound404
  | some st => biosampleLoop db tbl fuel (biosampleIdsOf db st) []

/-! ## The DRS registration pipeline (registration.py) -/

/-- A decoded JSON payload; its content is irrelevant to the claims, only
whether decoding succeeded. -/
structure JsonValue where
  raw : String
  deriving DecidableEq

/-- An HTTP response: the status code, and the result of response.json()
(none when the body is not valid JSON, in which case Python raises and the
bare except of response_to_json catches). -/
structure HttpResponse where
  status_code : Nat
  json : Option JsonValue
  deriving DecidableEq

/-- Outcome of requests.get(url, timeout=30): either a response or the
requests timeout exception. -/
inductive FetchResult where
  | response (r : HttpResponse)
  | timeoutError
  deriving DecidableEq

/-- The two exception classes of registration.py lines 34-39. -/
inductive FetchErr where
  | httpResponseNotOk
  | httpResponseNotJson
  deriving DecidableEq

/-- Embedding of response_to_json (registration.py lines 42-49). -/
def response_to_json (r : HttpResponse) : Except FetchErr JsonValue :=
  if r.status_code ≠ 200 then .error .httpResponseNotOk
  else
    match r.json with
    | none => .error .httpResponseNotJson
    | some j => .ok j

/-- Python sep.join(groups), at the character level. -/
def joinWithChar (c : Char) : List (List Char) → List Char
  | [] => []
  | [g] => g
  | g :: g2 :: gs => g ++ c :: joinWithChar c (g2 :: gs)

/-- Embedding of url_to_name (registration.py lines 22-27).  The regex
matches http(s)://domain/path with a non-empty slash-free domain and a
non-empty path; on a non-matching url Python's pattern.match returns None
and m.group raises AttributeError, embedded as the none result.  The name
is the dot-joined reversed domain components, two underscores, and the path
with "/" replaced by ".". -/
def url_to_name (url : String) : Option String :=
  let cs := url.data
  let core? :=
    if List.isPrefixOf "https://".data cs then some (cs.drop 8)
    else if List.isPrefixOf "http://".data cs then some (cs.drop 7)
    else none
  match core? with
  | none => none
  | some core =>
    match splitChar '/' core with
    | d :: r1 :: rs =>
      let path := joinWithChar '/' (r1 :: rs)
      if d.isEmpty || path.isEmpty then none
      else some ⟨joinWithChar '.' (splitChar '.' d).reverse ++ '_' :: '_' ::
            path.map (fun ch => if ch = '/' then '.' else ch)⟩
    | _ => none

/-- A filesystem event of one drs_object_in_for call: creation of the
temporary directory, a scratch-file write, removal of the directory. -/
inductive FsEvent where
  | mkTempDir
  | writeFile (path : String)
  | rmTempDir
  deriving DecidableEq

/-- The value drs_object_in_for returns: one of the two structured error
dicts, or the result dict holding the registration record (the DrsObjectIn
built from the merged descriptor). -/
inductive RegOutcome where
  | errorNotOk
  | errorNotJson
  | result (r : DrsBase)
  deriving DecidableEq

/-- The name of the TemporaryDirectory; its actual value is fresh per call
and irrelevant, only the paths formed under it matter. -/
def scratchDir : String := "tmpdir"

/-- The base dict passed to drs_metadata_for at registration.py lines 78-81:
the access method for the url, and the scratch file name with ":" replaced
by "-". -/
def baseFor (url nm : String) : DrsBase :=
  { access_methods := some [⟨url⟩],
    name := some (pyReplaceChar ':' '-' (pathName (scratchDir ++ "/" ++ nm))) }

/-- The body of the with-statement of drs_object_in_for (registration.py
lines 64-84): fetch, decode (mapping the two exception classes to the two
error dicts), write the scratch file named by url_to_name, build the
registration record.  The second component lists the scratch files written.
An uncaught exception (timeout from fetch_url, which the try does not cover,
or AttributeError from url_to_name) is an .error value. -/
def drs_body (fetch : String → FetchResult) (fm : FileMeta) (url : String) :
    Except PyExc RegOutcome × List FsEvent :=
  match fetch url with
  | .timeoutError => (.error .requestsTimeout, [])
  | .response resp =>
    match response_to_json resp with
    | .error .httpResponseNotOk => (.ok .errorNotOk, [])
    | .error .httpResponseNotJson => (.ok .errorNotJson, [])
    | .ok _ =>
      match url_to_name url with
      | none => (.error .attributeError, [])
      | some nm =>
        let filepath := scratchDir ++ "/" ++ nm
        (.ok (.result (drs_metadata_for fm filepath (baseFor url nm))),
          [.writeFile filepath])

/-- Embedding of drs_object_in_for (registration.py lines 63-84).  The
TemporaryDirectory context manager creates the scratch directory on entry
and removes it on exit along every path, including exception propagation,
so the event trace brackets the body's writes unconditionally. -/
def drs_object_in_for (fetch : String → FetchResult) (fm : FileMeta)
    (url : String) : Except PyExc RegOutcome × List FsEvent :=
  let r := drs_body fetch fm url
  (r.1, FsEvent.mkTempDir :: r.2 ++ [FsEvent.rmTempDir])

/-- Whether an event is a scratch-file write. -/
def isWriteEvent : FsEvent → Bool
  | .writeFile _ => true
  | _ => false

/-- Whether a call outcome is the success dict holding a result record. -/
def isResultOutcome : Except PyExc RegOutcome → Bool
  | .ok (.result _) => true
  | _ => false

/-! ## specialize_activity_set_docs (registration.py lines 101-126) -/

/-- A generic activity record: the type and id keys, each possibly absent
(doc["type"] raises KeyError when absent; doc.get("id", default) does not). -/
structure ARec where
  type : Option String
  id : Option String
  deriving DecidableEq

/-- The message built at registration.py lines 110-114 for a record whose
declared type is not a key of the type_collections map. -/
def msgFor (doc : ARec) (t : String) : String :=
  "activity_set doc " ++ doc.id.getD "<id missing>" ++ " has type " ++ t ++
    ", which is not in NMDC Schema. Note: Case is sensitive."

/-- Appending one message to validation_errors["activity_set"], creating the
key on first use (registration.py lines 115-118). -/
def appendMsg (ve : List (String × List String)) (msg : String) :
    List (String × List String) :=
  match dlookup ve "activity_set" with
  | some l => dset ve "activity_set" (l ++ [msg])
  | none => ve ++ [("activity_set", [msg])]

/-- Appending one record to docs[collection_name], creating the key on first
use (registration.py lines 121-124). -/
def addDoc (docs : List (String × List ARec)) (cname : String) (doc : ARec) :
    List (String × List ARec) :=
  match dlookup docs cname with
  | some l => dset docs cname (l ++ [doc])
  | none => docs ++ [(cname, [doc])]

/-- The for-loop over docs["activity_set"] (registration.py lines 105-124).
This iterates over the list as it stood when the loop started; Python would
observe in-place growth only if a type mapped back to activity_set itself,
a case excluded by hypothesis in the theorems below. -/
def specLoop (tc : List (String × String)) :
    List ARec → List (String × List ARec) → List (String × List String) →
    Except PyExc (List (String × List ARec) × List (String × List String))
  | [], docs, ve => .ok (docs, ve)
  | doc :: rest, docs, ve =>
    match doc.type with
    | none => .error .keyError
    | some t =>
      match dlookup tc t with
      | none => specLoop tc rest docs (appendMsg ve (msgFor doc t))
      | some cname => specLoop tc rest (addDoc docs cname doc) ve

/-- Embedding of specialize_activity_set_docs (registration.py lines
101-126).  tc is the get_type_collections() map (schema class name →
collection name); the schema dictionary it is derived from lies outside the
excerpt, so the map is a parameter. -/
def specialize_activity_set_docs (tc : List (String × String))
    (docs : List (String × List ARec)) :
    Except PyExc (List (String × List ARec) × List (String × List String)) :=
  match dlookup docs "activity_set" with
  | none => .ok (docs, [])
  | some acts =>
    match specLoop tc acts docs [] with
    | .error e => .error e
    | .ok (docs2, ve) => .ok (ddel docs2 "activity_set", ve)

/-- Whether a record's declared type maps to collection c under tc. -/
def recognizedAs (tc : List (String × String)) (c : String) (d : ARec) : Bool :=
  match d.type with
  | some t => decide (dlookup tc t = some c)
  | none => false

/-- Whether a record's declared type is present but not a key of tc. -/
def unrecognized (tc : List (String × String)) (d : ARec) : Bool :=
  match d.type with
  | some t => (dlookup tc t).isNone
  | none => false

/-- The validation message a record contributes (its type being present). -/
def msgOf1 (d : ARec) : String := msgFor d (d.type.getD "")

/-! ## Pagination model -/

/-- Modelled from the spec: the pagination engine find_resources
(nmdc_runtime.api.endpoints.util) is not part of the excerpt, only its
caller find_studies (find.py lines 38-46) is.  Per the spec, pagination is
cursor-based over the sort-ordered list of records matching the filter; the
token counts the records already delivered, and the next token is present
exactly when records remain. -/
def find_page {α : Type} (l : List α) (page_size k : Nat) : List α × Option Nat :=
  let page := (l.drop k).take page_size
  if l.length ≤ k + page_size then (page, none) else (page, some (k + page_size))

/-- Modelled from the spec: following every next_page_token from token k,
concatenating the pages.  fuel bounds the number of page fetches beyond the
first. -/
def concat_pages_go {α : Type} (l : List α) (page_size : Nat) :
    Nat → Nat → List α
  | 0, k => (find_page l page_size k).1
  | f + 1, k =>
    match find_page l page_size k with
    | (page, none) => page
    | (page, some k2) => page ++ concat_pages_go l page_size f k2

/-- Modelled from the spec: the concatenation of all pages starting from the
first token. -/
def concat_pages {α : Type} (l : List α) (page_size : Nat) : List α :=
  concat_pages_go l page_size l.length 0

/-! ## Concrete fixtures -/

/-- Modelled from the spec: the typecode registry collaborator (typecodes()
of nmdc_runtime.minter.config, not part of the excerpt) "exposes typecodes()
-> list of entries with name and schema_class, used to build the typecode →
class map".  The entries follow the doctest of find.py (sty → Study) and the
class names the traversal distinguishes. -/
def modelTable : List TypecodeEntry :=
  [⟨"sty", "nmdc:Study"⟩, ⟨"bsm", "nmdc:Biosample"⟩,
   ⟨"dobj", "nmdc:DataObject"⟩, ⟨"wfe", "nmdc:WorkflowExecution"⟩]

/-- A store whose process-edge graph has a cycle reachable from the study's
biosample: the single alldocs edge lists the biosample both as input and as
output, so the BFS frontier reproduces itself forever. -/
def cyclicDb : MDB :=
  { study_set := [⟨"nmdc:sty-11-cyc"⟩],
    biosample_set := [⟨"nmdc:bsm-11-cyc", ["nmdc:sty-11-cyc"]⟩],
    data_object_set := [],
    alldocs := [⟨["nmdc:bsm-11-cyc"], ["nmdc:bsm-11-cyc"]⟩] }

def d1doc : DataObjectDoc := ⟨"nmdc:dobj-11-d1", "D1"⟩

def d2doc : DataObjectDoc := ⟨"nmdc:dobj-11-d2", "D2"⟩

def exStudy : StudyDoc := ⟨"nmdc:sty-11-ex"⟩

/-- The scenario of the spec's testable property 4: biosample b1 has no
reachable data objects; biosample b2 reaches d1 at BFS level one and d2 (via
the intermediate workflow-execution id) at level two. -/
def exDb : MDB :=
  { study_set := [exStudy],
    biosample_set := [⟨"nmdc:bsm-11-b1", ["nmdc:sty-11-ex"]⟩,
                      ⟨"nmdc:bsm-11-b2", ["nmdc:sty-11-ex"]⟩],
    data_object_set := [d1doc, d2doc],
    alldocs := [⟨["nmdc:bsm-11-b2"], ["nmdc:dobj-11-d1", "nmdc:wfe-11-x1"]⟩,
                ⟨["nmdc:wfe-11-x1"], ["nmdc:dobj-11-d2"]⟩] }

/-- A filesystem metadata oracle with arbitrary fixed answers. -/
def fmEx : FileMeta :=
  ⟨fun _ => 7, fun _ => 5, fun _ => "deadbeef", fun _ => some "application/json"⟩

def respOkEx : HttpResponse := ⟨200, some ⟨"42"⟩⟩

/-- A fetcher answering 200 with a JSON body for every url. -/
def fetchOkEx : String → FetchResult := fun _ => .response respOkEx

/-- A fetcher answering 500 for every url. -/
def fetch500 : String → FetchResult := fun _ => .response ⟨500, none⟩

def aRec1 : ARec := ⟨some "nmdc:MetagenomeAssembly", some "nmdc:wfa-11-1"⟩

def aRec2 : ARec := ⟨some "nmdc:ReadQcAnalysisActivity", some "nmdc:wfa-11-2"⟩

def aRec3 : ARec := ⟨some "nmdc:MetagenomeAssembly", some "nmdc:wfa-11-3"⟩

def badRec1 : ARec := ⟨some "nmdc:Bogus", some "nmdc:wfa-11-4"⟩

def badRec2 : ARec := ⟨some "nmdc:Bogus2", none⟩

/-- Three records of recognized type interleaved with two of unrecognized
type (the spec's testable property 7). -/
def acts0 : List ARec := [aRec1, badRec1, aRec2, badRec2, aRec3]

def docs0 : List (String × List ARec) := [("activity_set", acts0)]

/-- A type_collections map recognizing the two activity classes of acts0. -/
def tc0 : List (String × String) :=
  [("nmdc:MetagenomeAssembly", "metagenome_assembly_set"),
   ("nmdc:ReadQcAnalysisActivity", "read_qc_analysis_activity_set")]

/-- The redistributed collections that specialize_activity_set_docs produces
on docs0 with tc0. -/
def docs2V : List (String × List ARec) :=
  [("metagenome_assembly_set", [aRec1, aRec3]),
   ("read_qc_analysis_activity_set", [aRec2])]

/-- The validation-error dict specialize_activity_set_docs produces on docs0
with tc0. -/
def veV : List (String × List String) :=
  [("activity_set", [msgOf1 badRec1, msgOf1 badRec2])]

/-- A record with no type key. -/
def badRec0 : ARec := ⟨none, some "nmdc:wfa-11-9"⟩

def docsBad : List (String × List ARec) := [("activity_set", [badRec0])]

def studyA : StudyDoc := ⟨"nmdc:sty-11-a"⟩

def studyB : StudyDoc := ⟨"nmdc:sty-11-b"⟩

def studyC : StudyDoc := ⟨"nmdc:sty-11-c3"⟩

/-! ## Association-list lemmas -/

theorem dlookup_dset_self {α : Type} :
    ∀ (m : List (String × α)) (k : String) (v l0 : α),
      dlookup m k = some l0 → dlookup (dset m k v) k = some v := by
  intro m
  induction m with
  | nil => intro k v l0 h; simp [dlookup] at h
  | cons p t ih =>
    intro k v l0 h
    obtain ⟨a, b⟩ := p
    by_cases hk : a = k
    · simp [dset, dlookup, hk]
    · simp only [dlookup, if_neg hk] at h
      simp only [dset, if_neg hk, dlookup]
      exact ih k v l0 h

theorem dlookup_dset_ne {α : Type} :
    ∀ (m : List (String × α)) (k k2 : String) (v : α),
      k ≠ k2 → dlookup (dset m k v) k2 = dlookup m k2 := by
  intro m
  induction m with
  | nil => intro k k2 v _; rfl
  | cons p t ih =>
    intro k k2 v h
    obtain ⟨a, b⟩ := p
    by_cases hk : a = k
    · subst hk
      simp only [dset, if_pos rfl, dlookup]
      rw [if_neg h, if_neg h]
      exact ih a k2 v h
    · simp only [dset, if_neg hk, dlookup]
      by_cases hk2 : a = k2
      · rw [if_pos hk2, if_pos hk2]
      · rw [if_neg hk2, if_neg hk2]
        exact ih k k2 v h

theorem dlookup_append_some {α : Type} :
    ∀ (m l : List (String × α)) (k : String) (v : α),
      dlookup m k = some v → dlookup (m ++ l) k = some v := by
  intro m
  induction m with
  | nil => intro l k v h; simp [dlookup] at h
  | cons p t ih =>
    intro l k v h
    obtain ⟨a, b⟩ := p
    by_cases hk : a = k
    · simp only [dlookup, if_pos hk] at h
      simp only [List.cons_append, dlookup, if_pos hk]
      exact h
    · simp only [dlookup, if_neg hk] at h
      simp only [List.cons_append, dlookup, if_neg hk]
      exact ih l k v h

theorem dlookup_append_none {α : Type} :
    ∀ (m l : List (String × α)) (k : String),
      dlookup m k = none → dlookup (m ++ l) k = dlookup l k := by
  intro m
  induction m with
  | nil => intro l k _; rfl
  | cons p t ih =>
    intro l k h
    obtain ⟨a, b⟩ := p
    by_cases hk : a = k
    · simp [dlookup, hk] at h
    · simp only [dlookup, if_neg hk] at h
      simp only [List.cons_append, dlookup, if_neg hk]
      exact ih l k h

theorem dlookup_ddel_self {α : Type} :
    ∀ (m : List (String × α)) (k : String), dlookup (ddel m k) k = none := by
  intro m
  induction m with
  | nil => intro k; rfl
  | cons p t ih =>
    intro k
    obtain ⟨a, b⟩ := p
    by_cases hk : a = k
    · simp only [ddel, if_pos hk]
      exact ih k
    · simp only [ddel, if_neg hk, dlookup]
      exact ih k

theorem dlookup_ddel_ne {α : Type} :
    ∀ (m : List (String × α)) (k c : String),
      k ≠ c → dlookup (ddel m k) c = dlookup m c := by
  intro m
  induction m with
  | nil => intro k c _; rfl
  | cons p t ih =>
    intro k c h
    obtain ⟨a, b⟩ := p
    by_cases hk : a = k
    · subst hk
      simp only [ddel, if_pos rfl, dlookup]
      rw [if_neg h]
      exact ih a c h
    · simp only [ddel, if_neg hk, dlookup]
      by_cases hc : a = c
      · rw [if_pos hc, if_pos hc]
      · rw [if_neg hc, if_neg hc]
        exact ih k c h

theorem dlookup_mem {α : Type} :
    ∀ (m : List (String × α)) (k : String) (v : α),
      dlookup m k = some v → (k, v) ∈ m := by
  intro m
  induction m with
  | nil => intro k v h; simp [dlookup] at h
  | cons p t ih =>
    intro k v h
    obtain ⟨a, b⟩ := p
    by_cases hk : a = k
    · subst hk
      simp [dlookup] at h
      subst h
      exact List.mem_cons_self _ _
    · simp only [dlookup, if_neg hk] at h
      exact List.mem_cons_of_mem _ (ih k v h)

/-! ## Lemmas about specialize_activity_set_docs -/

theorem appendMsg_lookup (ve : List (String × List String)) (msg : String) :
    (dlookup (appendMsg ve msg) "activity_set").getD []
      = (dlookup ve "activity_set").getD [] ++ [msg] := by
  unfold appendMsg
  cases h : dlookup ve "activity_set" with
  | some l =>
    rw [dlookup_dset_self ve _ _ l h]
    rfl
  | none =>
    rw [dlookup_append_none ve _ _ h]
    simp [dlookup]

theorem addDoc_lookup (docs : List (String × List ARec)) (cname : String)
    (d : ARec) (c : String) :
    (dlookup (addDoc docs cname d) c).getD []
      = (dlookup docs c).getD [] ++ (if cname = c then [d] else []) := by
  unfold addDoc
  cases h : dlookup docs cname with
  | some l =>
    by_cases hc : cname = c
    · subst hc
      rw [dlookup_dset_self docs _ _ l h]
      simp [h]
    · rw [dlookup_dset_ne docs cname c _ hc, if_neg hc, List.append_nil]
  | none =>
    by_cases hc : cname = c
    · subst hc
      rw [dlookup_append_none docs _ _ h]
      simp [dlookup, h]
    · cases h2 : dlookup docs c with
      | some v =>
        rw [dlookup_append_some docs _ c v h2, if_neg hc, List.append_nil]
      | none =>
        rw [dlookup_append_none docs _ c h2, if_neg hc, List.append_nil]
        simp [dlookup, hc]

theorem specLoop_char (tc : List (String × String)) :
    ∀ (acts : List ARec) (docs : List (String × List ARec))
      (ve : List (String × List String)),
      (∀ d ∈ acts, (d.type).isSome = true) →
      ∃ docs2 ve2,
        specLoop tc acts docs ve = .ok (docs2, ve2) ∧
        (∀ c, (dlookup docs2 c).getD []
            = (dlookup docs c).getD [] ++ acts.filter (recognizedAs tc c)) ∧
        (dlookup ve2 "activity_set").getD []
            = (dlookup ve "activity_set").getD []
              ++ (acts.filter (unrecognized tc)).map msgOf1 := by
  intro acts
  induction acts with
  | nil =>
    intro docs ve _
    exact ⟨docs, ve, rfl, by simp [specLoop], by simp [specLoop]⟩
  | cons doc rest ih =>
    intro docs ve htyped
    obtain ⟨t, ht⟩ :=
      Option.isSome_iff_exists.mp (htyped doc (List.mem_cons_self _ _))
    cases htc : dlookup tc t with
    | none =>
      obtain ⟨docs2, ve2, heq, hdocs, hve⟩ :=
        ih docs (appendMsg ve (msgFor doc t))
          (fun d hmem => htyped d (List.mem_cons_of_mem _ hmem))
      refine ⟨docs2, ve2, ?_, ?_, ?_⟩
      · simp only [specLoop, ht, htc]
        exact heq
      · intro c
        rw [hdocs c]
        have hrec : recognizedAs tc c doc = false := by
          simp [recognizedAs, ht, htc]
        simp [List.filter_cons, hrec]
      · rw [hve, appendMsg_lookup]
        have hu : unrecognized tc doc = true := by
          simp [unrecognized, ht, htc]
        have hm : msgOf1 doc = msgFor doc t := by
          simp [msgOf1, ht]
        simp [List.filter_cons, hu, hm]
    | some cname =>
      obtain ⟨docs2, ve2, heq, hdocs, hve⟩ :=
        ih (addDoc docs cname doc) ve
          (fun d hmem => htyped d (List.mem_cons_of_mem _ hmem))
      refine ⟨docs2, ve2, ?_, ?_, ?_⟩
      · simp only [specLoop, ht, htc]
        exact heq
      · intro c
        rw [hdocs c, addDoc_lookup]
        by_cases hc : cname = c
        · subst hc
          have hrec : recognizedAs tc cname doc = true := by
            simp [recognizedAs, ht, htc]
          simp [List.filter_cons, hrec]
        · have hrec : recognizedAs tc c doc = false := by
            simp [recognizedAs, ht, htc, hc]
          simp [List.filter_cons, hrec, hc]
      · rw [hve]
        have hu : unrecognized tc doc = false := by
          simp [unrecognized, ht, htc]
        simp [List.filter_cons, hu]

theorem specLoop_err (tc : List (String × String)) :
    ∀ (acts : List ARec) (docs : List (String × List ARec))
      (ve : List (String × List String)),
      (∃ d, d ∈ acts ∧ d.type = none) →
      specLoop tc acts docs ve = .error .keyError := by
  intro acts
  induction acts with
  | nil =>
    rintro docs ve ⟨d, hmem, -⟩
    simp at hmem
  | cons a rest ih =>
    rintro docs ve ⟨d, hmem, hnone⟩
    cases ha : a.type with
    | none => simp [specLoop, ha]
    | some t =>
      have hdr : d ∈ rest := by
        rcases List.mem_cons.mp hmem with h | h
        · subst h
          rw [ha] at hnone
          exact absurd hnone (by simp)
        · exact h
      simp only [specLoop, ha]
      cases htc : dlookup tc t with
      | none => exact ih _ _ ⟨d, hdr, hnone⟩
      | some cname => exact ih _ _ ⟨d, hdr, hnone⟩

theorem specLoop_total (tc : List (String × String)) :
    ∀ (acts : List ARec) (docs : List (String × List ARec))
      (ve : List (String × List String)),
      (∀ d ∈ acts, (d.type).isSome = true) →
      ∃ r, specLoop tc acts docs ve = .ok r := by
  intro acts
  induction acts with
  | nil => intro docs ve _; exact ⟨(docs, ve), rfl⟩
  | cons a rest ih =>
    intro docs ve h
    obtain ⟨t, ht⟩ :=
      Option.isSome_iff_exists.mp (h a (List.mem_cons_self _ _))
    simp only [specLoop, ht]
    cases htc : dlookup tc t with
    | none => exact ih _ _ (fun d hd => h d (List.mem_cons_of_mem _ hd))
    | some cname => exact ih _ _ (fun d hd => h d (List.mem_cons_of_mem _ hd))

/-! ## Lemmas about the typecode classifier -/

theorem build_class_map_wf :
    ∀ (table : List TypecodeEntry),
      (∀ e ∈ table, ((pySplit ':' e.schema_class)[1]?).isSome = true) →
      build_class_map table
        = .ok (table.map (fun e => (e.name, ((pySplit ':' e.schema_class)[1]?).getD ""))) := by
  intro table
  induction table with
  | nil => intro _; rfl
  | cons e rest ih =>
    intro h
    obtain ⟨c, hc⟩ :=
      Option.isSome_iff_exists.mp (h e (List.mem_cons_self _ _))
    simp only [build_class_map, hc,
      ih (fun d hd => h d (List.mem_cons_of_mem _ hd))]
    simp [hc]

theorem filter_map_name (g : TypecodeEntry → String) (k : String) :
    ∀ table : List TypecodeEntry,
      (table.map (fun e => (e.name, g e))).filter (fun p => p.1 = k)
        = (table.filter (fun e => e.name = k)).map (fun e => (e.name, g e)) := by
  intro table
  induction table with
  | nil => rfl
  | cons e rest ih =>
    simp only [List.map_cons, List.filter_cons]
    by_cases hk : e.name = k
    · simp [hk, ih]
    · simp [hk, ih]

theorem dict_get_last_map (table : List TypecodeEntry)
    (g : TypecodeEntry → String) (k : String) :
    dict_get_last (table.map (fun e => (e.name, g e))) k
      = ((table.filter (fun e => e.name = k)).getLast?).map g := by
  unfold dict_get_last
  rw [filter_map_name g k table, List.getLast?_map, Option.map_map]
  rfl

/-! ## Lemmas about the study traversal -/

/-- On the cyclic store the BFS step reproduces the one-element frontier. -/
theorem cyclic_step (acc : List DataObjectDoc) :
    stepIds cyclicDb modelTable ["nmdc:bsm-11-cyc"] ([], acc)
      = .ok (["nmdc:bsm-11-cyc"], acc) := rfl

/-- On the cyclic store the while loop exhausts every fuel bound: the
frontier never empties, i.e. the Python loop never terminates. -/
theorem cyclic_loop (fuel : Nat) :
    ∀ acc, collectLoop cyclicDb modelTable fuel ["nmdc:bsm-11-cyc"] acc
      = .ok none := by
  induction fuel with
  | zero => intro acc; rfl
  | succ f ih =>
    intro acc
    have h : collectLoop cyclicDb modelTable (f + 1) ["nmdc:bsm-11-cyc"] acc
        = collectLoop cyclicDb modelTable f ["nmdc:bsm-11-cyc"] acc := rfl
    rw [h]
    exact ih acc

/-- On the cyclic store the whole endpoint reports fuel exhaustion for every
fuel bound. -/
theorem cyclic_run (fuel : Nat) :
    find_data_objects_for_study cyclicDb modelTable fuel "nmdc:sty-11-cyc"
      = .ok none := by
  show biosampleLoop cyclicDb modelTable fuel ["nmdc:bsm-11-cyc"] [] = .ok none
  simp only [biosampleLoop]
  rw [cyclic_loop fuel []]

/-- The entry a biosample contributes, as a function: none when its BFS
collects nothing (or the loop does not finish), the dict entry otherwise. -/
def entryFor (db : MDB) (tbl : List TypecodeEntry) (fuel : Nat) (b : String) :
    Option Entry :=
  match collectLoop db tbl fuel [b] [] with
  | .ok (some objs) => if objs.isEmpty then none else some (mkEntry b objs)
  | _ => none

theorem biosampleLoop_char (db : MDB) (tbl : List TypecodeEntry) (fuel : Nat) :
    ∀ (bs : List String) (acc entries : List Entry),
      biosampleLoop db tbl fuel bs acc = .ok (some entries) →
      entries = acc ++ bs.filterMap (entryFor db tbl fuel) := by
  intro bs
  induction bs with
  | nil =>
    intro acc entries h
    simp only [biosampleLoop, Except.ok.injEq, Option.some.injEq] at h
    simp [← h]
  | cons b rest ih =>
    intro acc entries h
    simp only [biosampleLoop] at h
    cases hcl : collectLoop db tbl fuel [b] [] with
    | error e => rw [hcl] at h; simp at h
    | ok o =>
      cases o with
      | none => rw [hcl] at h; simp at h
      | some objs =>
        rw [hcl] at h
        have hrest := ih _ _ h
        rw [hrest, List.filterMap_cons]
        simp only [entryFor, hcl]
        by_cases he : objs.isEmpty
        · simp [he]
        · simp [he]

/-! ## Lemmas about the registration pipeline -/

theorem trace_getLast (fs : List FsEvent) :
    (FsEvent.mkTempDir :: fs ++ [FsEvent.rmTempDir]).getLast?
      = some FsEvent.rmTempDir := by
  have h : FsEvent.mkTempDir :: fs ++ [FsEvent.rmTempDir]
      = (FsEvent.mkTempDir :: fs) ++ [FsEvent.rmTempDir] := rfl
  rw [h]
  exact List.getLast?_concat _

theorem filter_writes (l : List FsEvent) :
    (FsEvent.mkTempDir :: l ++ [FsEvent.rmTempDir]).filter isWriteEvent
      = l.filter isWriteEvent := by
  have h : FsEvent.mkTempDir :: l ++ [FsEvent.rmTempDir]
      = (FsEvent.mkTempDir :: l) ++ [FsEvent.rmTempDir] := rfl
  rw [h, List.filter_append]
  simp [isWriteEvent, List.filter_cons]

/-- Case analysis of the body of drs_object_in_for: a call ends in the
success dict and wrote exactly the scratch file named from the url, or does
not and wrote nothing. -/
theorem drs_body_writes (fetch : String → FetchResult) (fm : FileMeta)
    (url : String) :
    (isResultOutcome (drs_body fetch fm url).1 = true ∧
      (drs_body fetch fm url).2
        = [FsEvent.writeFile (scratchDir ++ "/" ++ ((url_to_name url).getD ""))]) ∨
    (isResultOutcome (drs_body fetch fm url).1 = false ∧
      (drs_body fetch fm url).2 = []) := by
  cases hfu : fetch url with
  | timeoutError =>
    right
    constructor
    · simp only [drs_body, hfu, isResultOutcome]
    · simp only [drs_body, hfu]
  | response resp =>
    cases hr : response_to_json resp with
    | error e =>
      cases e
      · right
        constructor
        · simp only [drs_body, hfu, hr, isResultOutcome]
        · simp only [drs_body, hfu, hr]
      · right
        constructor
        · simp only [drs_body, hfu, hr, isResultOutcome]
        · simp only [drs_body, hfu, hr]
    | ok j =>
      cases hn : url_to_name url with
      | none =>
        right
        constructor
        · simp only [drs_body, hfu, hr, hn, isResultOutcome]
        · simp only [drs_body, hfu, hr, hn]
      | some nm =>
        left
        constructor
        · simp only [drs_body, hfu, hr, hn, isResultOutcome]
        · simp only [drs_body, hfu, hr, hn, Option.getD_some]

/-! ## Lemmas about the pagination model -/

theorem concat_pages_go_eq {α : Type} (l : List α) (ps : Nat) :
    ∀ (fuel k : Nat), l.length ≤ k + ps * (fuel + 1) →
      concat_pages_go l ps fuel k = l.drop k := by
  intro fuel
  induction fuel with
  | zero =>
    intro k hk
    have hle : l.length ≤ k + ps := by simpa using hk
    simp only [concat_pages_go, find_page]
    rw [if_pos hle]
    exact List.take_of_length_le (by simp [List.length_drop]; omega)
  | succ f ih =>
    intro k hk
    by_cases hle : l.length ≤ k + ps
    · simp only [concat_pages_go, find_page]
      rw [if_pos hle]
      exact List.take_of_length_le (by simp [List.length_drop]; omega)
    · simp only [concat_pages_go, find_page]
      rw [if_neg hle]
      have hbound : l.length ≤ (k + ps) + ps * (f + 1) := by
        rw [Nat.mul_succ] at hk
        omega
      show List.take ps (List.drop k l) ++ concat_pages_go l ps f (k + ps)
        = List.drop k l
      rw [ih (k + ps) hbound]
      rw [← List.drop_drop]
      exact List.take_append_drop ps (l.drop k)

/-! ## Claims -/

/-- Claim C1, refuted as stated: the claim asserts that the traversal of
find_data_objects_for_study terminates on every alldocs graph, including one
with a cycle reachable from a biosample, thanks to a visited set or depth
bound.  The source has neither guard: on cyclicDb (one edge whose output is
the biosample itself) no fuel bound ever completes the loop, so there is
no fuel for which the run returns a result list. -/
theorem C1_counterexample :
    ¬ ∃ (fuel : Nat) (entries : List Entry),
      find_data_objects_for_study cyclicDb modelTable fuel "nmdc:sty-11-cyc"
        = .ok (some entries) := by
  rintro ⟨fuel, entries, h⟩
  rw [cyclic_run fuel] at h
  simp at h

/-- Claim C1, amended: the implementation has no visited set and no depth
bound; the while loop stops only when the frontier empties, and on a graph
with a cycle reachable from a biosample the frontier never empties, so the
traversal does not terminate — every fuel bound on the embedded loop is
exhausted (result .ok none). -/
theorem C1_theorem (fuel : Nat) :
    find_data_objects_for_study cyclicDb modelTable fuel "nmdc:sty-11-cyc"
      = .ok none :=
  cyclic_run fuel

/-- Claim C2, refuted as stated: on the spec's own scenario (biosample b1
reaches nothing, b2 reaches d1 then d2) the endpoint returns exactly one
entry for b2 with the data objects in discovery order, but the key holding
them is "data_object_set", not "data_objects" as the claim's entry shape
{biosample_id, data_objects} requires. -/
theorem C2_counterexample :
    find_data_objects_for_study exDb modelTable 10 "nmdc:sty-11-ex"
      = .ok (some [mkEntry "nmdc:bsm-11-b2" [d1doc, d2doc]]) ∧
    dlookup (mkEntry "nmdc:bsm-11-b2" [d1doc, d2doc]) "data_objects" = none ∧
    dlookup (mkEntry "nmdc:bsm-11-b2" [d1doc, d2doc]) "data_object_set"
      = some (EntryVal.docs [d1doc, d2doc]) :=
  ⟨rfl, rfl, rfl⟩

/-- Claim C2, amended (the per-entry key holding the collected documents is
data_object_set, not data_objects): whenever the endpoint returns for an
existing study, the result is exactly one entry per biosample of the study
whose BFS collects at least one data object (biosamples with none are
omitted), in biosample lookup order, each entry the dict with keys
biosample_id and data_object_set, the latter holding the BFS-discovery-order
document list. -/
theorem C2_theorem (db : MDB) (tbl : List TypecodeEntry) (fuel : Nat)
    (study_id : String) (st : StudyDoc) (entries : List Entry)
    (hst : db.study_set.find? (fun s => s.id = study_id) = some st)
    (hrun : find_data_objects_for_study db tbl fuel study_id
      = .ok (some entries)) :
    entries = (biosampleIdsOf db st).filterMap (entryFor db tbl fuel) := by
  unfold find_data_objects_for_study at hrun
  rw [hst] at hrun
  simpa using biosampleLoop_char db tbl fuel _ _ _ hrun

/-- Claim C2 witness: the spec's concrete scenario, discharged through
C2_theorem: one entry, for b2, holding [d1, d2] under data_object_set. -/
theorem C2_witness :
    find_data_objects_for_study exDb modelTable 10 "nmdc:sty-11-ex"
      = .ok (some [mkEntry "nmdc:bsm-11-b2" [d1doc, d2doc]]) ∧
    [mkEntry "nmdc:bsm-11-b2" [d1doc, d2doc]]
      = (biosampleIdsOf exDb exStudy).filterMap (entryFor exDb modelTable 10) :=
  ⟨rfl, C2_theorem exDb modelTable 10 "nmdc:sty-11-ex" exStudy
    [mkEntry "nmdc:bsm-11-b2" [d1doc, d2doc]] rfl rfl⟩

/-- Claim C3, refuted as stated: the two error mappings hold, but the
success clause ("on a 200 response with a JSON body it returns a result
dict") fails for a URL the url_to_name regex does not match: for
"https://example.com" (no path component) a 200 JSON response makes the call
raise AttributeError out of url_to_name instead of returning a result. -/
theorem C3_counterexample :
    (drs_object_in_for fetchOkEx fmEx "https://example.com").1
      = .error PyExc.attributeError := rfl

/-- Claim C3, amended: register (drs_object_in_for) applied to a URL whose
response has HTTP status other than 200 returns the error dict
HttpResponseNotOk; applied to a 200 response whose body is not valid JSON it
returns the error dict HttpResponseNotJson — both as structured results, not
raised exceptions; and on a 200 response with a JSON body it returns the
result dict holding the registration record, provided the URL matches the
http(s)://host/path pattern of url_to_name. -/
theorem C3_theorem (fetch : String → FetchResult) (fm : FileMeta)
    (url : String) (resp : HttpResponse)
    (hf : fetch url = .response resp) :
    (resp.status_code ≠ 200 →
      (drs_object_in_for fetch fm url).1 = .ok .errorNotOk) ∧
    (resp.status_code = 200 → resp.json = none →
      (drs_object_in_for fetch fm url).1 = .ok .errorNotJson) ∧
    (∀ j nm, resp.status_code = 200 → resp.json = some j →
      url_to_name url = some nm →
      (drs_object_in_for fetch fm url).1
        = .ok (.result (drs_metadata_for fm (scratchDir ++ "/" ++ nm)
            (baseFor url nm)))) := by
  refine ⟨?_, ?_, ?_⟩
  · intro h200
    show (drs_body fetch fm url).1 = .ok .errorNotOk
    simp only [drs_body, hf, response_to_json]
    rw [if_pos h200]
  · intro h200 hjson
    show (drs_body fetch fm url).1 = .ok .errorNotJson
    simp only [drs_body, hf, response_to_json]
    rw [if_neg (fun hne => hne h200), hjson]
  · intro j nm h200 hjson hnm
    show (drs_body fetch fm url).1 = _
    simp only [drs_body, hf, response_to_json]
    rw [if_neg (fun hne => hne h200), hjson, hnm]

/-- Claim C3 witness: a 500 response maps to the HttpResponseNotOk error
dict, and a 200 JSON response for a pattern-matching URL yields the result
dict, both through C3_theorem. -/
theorem C3_witness :
    (drs_object_in_for fetch500 fmEx "https://example.com/a/b").1
      = .ok .errorNotOk ∧
    (drs_object_in_for fetchOkEx fmEx "https://example.com/data/x.json").1
      = .ok (.result (drs_metadata_for fmEx
          (scratchDir ++ "/" ++ "com.example__data.x.json")
          (baseFor "https://example.com/data/x.json"
            "com.example__data.x.json"))) :=
  ⟨(C3_theorem fetch500 fmEx "https://example.com/a/b" ⟨500, none⟩ rfl).1
      (by decide),
   (C3_theorem fetchOkEx fmEx "https://example.com/data/x.json" respOkEx
      rfl).2.2 ⟨"42"⟩ "com.example__data.x.json" rfl rfl rfl⟩

/-- Claim C4 (code bug per the spec): a timeout of the network fetch is NOT
converted into the HttpResponseNotOk-class structured failure: fetch_url is
called outside the try block and requests.exceptions.Timeout is not among
the caught exception classes, so the exception escapes drs_object_in_for.
The theorem evaluates the call against a fetcher that times out. -/
theorem C4_theorem (fm : FileMeta) (url : String) :
    (drs_object_in_for (fun _ => FetchResult.timeoutError) fm url).1
      = .error PyExc.requestsTimeout := rfl

/-- Claim C5, confirmed: drs_metadata_for never overwrites a field already
present in the caller-supplied base (a present field keeps exactly its
value, e.g. size 42 stays 42), fills exactly the missing ones among size,
created_time, checksums, mime_type and name with the filesystem-derived
values, and touches nothing else (access_methods and all other keys are
returned unchanged). -/
theorem C5_theorem (fm : FileMeta) (filepath : String) (base : DrsBase) :
    (drs_metadata_for fm filepath base).size
        = some (base.size.getD (fm.getsize filepath)) ∧
    (drs_metadata_for fm filepath base).created_time
        = some (base.created_time.getD (fm.getctime filepath)) ∧
    (drs_metadata_for fm filepath base).checksums
        = some (base.checksums.getD [⟨"sha-256", fm.sha256 filepath⟩]) ∧
    (drs_metadata_for fm filepath base).mime_type
        = some (base.mime_type.getD (fm.guess_type filepath)) ∧
    (drs_metadata_for fm filepath base).name
        = some (base.name.getD (pathName filepath)) ∧
    (drs_metadata_for fm filepath base).access_methods = base.access_methods ∧
    (drs_metadata_for fm filepath base).extra = base.extra := by
  obtain ⟨s, ct, ck, mt, nm, am, ex⟩ := base
  cases s <;> cases ct <;> cases ck <;> cases mt <;> cases nm <;>
    simp [drs_metadata_for]

/-- Claim C6, refuted as stated: the claim asserts the function returns
without crashing for every input id, but an id with no ":" makes
doc_id.split(":")[1] raise an uncaught IndexError (the split yields one
token and index 1 is out of range). -/
theorem C6_counterexample :
    get_classname_from_typecode modelTable "nmdcsty-11-abc"
      = .error PyExc.indexError := rfl

/-- Claim C6, amended: for every id containing at least one ":" (and a table
whose schema_class values contain ":"), get_classname_from_typecode returns,
without crashing, the class the typecode maps to in the table — some C for a
mapped typecode, none for an unknown one — where the typecode is the token
between the first and second ":" truncated at the first "-"; an id without
":" raises an uncaught IndexError. -/
theorem C6_theorem (table : List TypecodeEntry) (doc_id seg : String)
    (hcolon : (pySplit ':' doc_id)[1]? = some seg)
    (hwf : ∀ e ∈ table, ((pySplit ':' e.schema_class)[1]?).isSome = true) :
    get_classname_from_typecode table doc_id
      = .ok (table_class_of table ((pySplit '-' seg).headD "")) := by
  unfold get_classname_from_typecode
  simp only [hcolon, build_class_map_wf table hwf,
    dict_get_last_map table (fun e => ((pySplit ':' e.schema_class)[1]?).getD "")]
  rfl

/-- Claim C6 witness: the doctest of find.py, through C6_theorem — the sty
typecode classifies as Study. -/
theorem C6_witness :
    get_classname_from_typecode modelTable "nmdc:sty-11-r2h77870"
      = .ok (some "Study") :=
  (C6_theorem modelTable "nmdc:sty-11-r2h77870" "sty-11-r2h77870" rfl
    (by decide)).trans (by rfl)

/-- Claim C7, confirmed (under the precondition, covered by claim C10, that
every activity_set record carries a type, and with no type mapping back to
activity_set itself): specialize_activity_set_docs succeeds, removes the
activity_set key, appends every record of recognized type to the collection
its type maps to (in order, after that collection's prior content), and for
each unrecognized-type record accumulates exactly one descriptive message
under the validation-error key activity_set instead of failing. -/
theorem C7_theorem (tc : List (String × String))
    (docs : List (String × List ARec)) (acts : List ARec)
    (hacts : dlookup docs "activity_set" = some acts)
    (htyped : ∀ d ∈ acts, (d.type).isSome = true)
    (hnoact : ∀ p ∈ tc, p.2 ≠ "activity_set") :
    ∃ docs2 ve,
      specialize_activity_set_docs tc docs = .ok (docs2, ve) ∧
      dlookup docs2 "activity_set" = none ∧
      (∀ c, c ≠ "activity_set" →
        (dlookup docs2 c).getD []
          = (dlookup docs c).getD [] ++ acts.filter (recognizedAs tc c)) ∧
      (dlookup ve "activity_set").getD []
        = (acts.filter (unrecognized tc)).map msgOf1 := by
  obtain ⟨d2, v2, heq, hdocs, hve⟩ := specLoop_char tc acts docs [] htyped
  refine ⟨ddel d2 "activity_set", v2, ?_, ?_, ?_, ?_⟩
  · unfold specialize_activity_set_docs
    simp only [hacts, heq]
  · exact dlookup_ddel_self d2 "activity_set"
  · intro c hc
    rw [dlookup_ddel_ne d2 "activity_set" c (Ne.symm hc)]
    exact hdocs c
  · simpa [dlookup] using hve

/-- Claim C7 witness: the spec's 3-valid/2-unrecognized scenario, discharged
through C7_theorem: the three valid records land in their two collections,
the validation-error list under activity_set has exactly two messages. -/
theorem C7_witness :
    specialize_activity_set_docs tc0 docs0 = .ok (docs2V, veV) ∧
    dlookup docs2V "activity_set" = none ∧
    (dlookup docs2V "metagenome_assembly_set").getD []
      = (dlookup docs0 "metagenome_assembly_set").getD []
        ++ acts0.filter (recognizedAs tc0 "metagenome_assembly_set") ∧
    (dlookup veV "activity_set").getD []
      = (acts0.filter (unrecognized tc0)).map msgOf1 ∧
    ((dlookup veV "activity_set").getD []).length = 2 := by
  obtain ⟨docs2, ve, heq, hno, hcol, hve⟩ :=
    C7_theorem tc0 docs0 acts0 rfl (by decide) (by decide)
  have hpin : (Except.ok (docs2, ve) :
      Except PyExc (List (String × List ARec) × List (String × List String)))
      = .ok (docs2V, veV) := heq.symm.trans (by rfl)
  injection hpin with hpair
  injection hpair with hdocs2 hve2
  subst hdocs2
  subst hve2
  exact ⟨heq, hno, hcol "metagenome_assembly_set" (by decide), hve,
    by rw [hve]; rfl⟩

/-- Claim C8, refuted as stated: the claim asserts every call writes exactly
one scratch file, but a call whose fetch fails (here: a 500 response) takes
the error return before json_data_from_url_to_file and writes no scratch
file at all. -/
theorem C8_counterexample :
    ((drs_object_in_for fetch500 fmEx "https://example.com/a/b").2.filter
      isWriteEvent).length ≠ 1 := by decide

/-- Claim C8, amended: every call creates the temporary scratch directory
first and removes it unconditionally last, whatever the outcome (fetch
error, crash or success); a call that returns the success result dict wrote
exactly one scratch file, at the path deterministically derived from the URL
(scratch dir plus url_to_name(url)); a call with any other outcome wrote no
scratch file. -/
theorem C8_theorem (fetch : String → FetchResult) (fm : FileMeta)
    (url : String) :
    ((drs_object_in_for fetch fm url).2.head? = some FsEvent.mkTempDir) ∧
    ((drs_object_in_for fetch fm url).2.getLast? = some FsEvent.rmTempDir) ∧
    (isResultOutcome (drs_object_in_for fetch fm url).1 = true →
      (drs_object_in_for fetch fm url).2.filter isWriteEvent
        = [FsEvent.writeFile
            (scratchDir ++ "/" ++ ((url_to_name url).getD ""))]) ∧
    (isResultOutcome (drs_object_in_for fetch fm url).1 = false →
      (drs_object_in_for fetch fm url).2.filter isWriteEvent = []) := by
  refine ⟨rfl, trace_getLast _, ?_, ?_⟩
  · intro hres
    have hres2 : isResultOutcome (drs_body fetch fm url).1 = true := hres
    show (FsEvent.mkTempDir :: (drs_body fetch fm url).2
        ++ [FsEvent.rmTempDir]).filter isWriteEvent = _
    rw [filter_writes]
    rcases drs_body_writes fetch fm url with ⟨h1, h2⟩ | ⟨h1, h2⟩
    · rw [h2]
      rfl
    · rw [h1] at hres2
      exact absurd hres2 (by simp)
  · intro hres
    have hres2 : isResultOutcome (drs_body fetch fm url).1 = false := hres
    show (FsEvent.mkTempDir :: (drs_body fetch fm url).2
        ++ [FsEvent.rmTempDir]).filter isWriteEvent = _
    rw [filter_writes]
    rcases drs_body_writes fetch fm url with ⟨h1, h2⟩ | ⟨h1, h2⟩
    · rw [h1] at hres2
      exact absurd hres2 (by simp)
    · rw [h2]
      rfl

/-- Claim C8 witness: a successful concrete call, through C8_theorem — the
single scratch write at the URL-derived path, and the unconditional cleanup
as last event. -/
theorem C8_witness :
    (drs_object_in_for fetchOkEx fmEx "https://example.com/data/x.json").2.filter
        isWriteEvent
      = [FsEvent.writeFile (scratchDir ++ "/"
          ++ ((url_to_name "https://example.com/data/x.json").getD ""))] ∧
    (drs_object_in_for fetchOkEx fmEx "https://example.com/data/x.json").2.getLast?
      = some FsEvent.rmTempDir :=
  ⟨(C8_theorem fetchOkEx fmEx "https://example.com/data/x.json").2.2.1 rfl,
   (C8_theorem fetchOkEx fmEx "https://example.com/data/x.json").2.1⟩

/-- Claim C9, confirmed against the spec-modelled pagination engine
(find_resources is not part of the excerpt; only its caller find_studies
is): for a fixed filter over an unchanging collection, a page is a pure
function of the page token (issuing the same token twice returns the same
slice), and concatenating all pages by following next_page_token yields
exactly the full matching result list — no duplicates, no omissions, in
order. -/
theorem C9_theorem {α : Type} (records : List α) (flt : α → Bool) (ps : Nat)
    (hps : 0 < ps) :
    concat_pages (records.filter flt) ps = records.filter flt ∧
    (∀ k, (find_page (records.filter flt) ps k).1
        = ((records.filter flt).drop k).take ps) := by
  constructor
  · unfold concat_pages
    rw [concat_pages_go_eq (records.filter flt) ps (records.filter flt).length 0
      (by
        have h1 := Nat.le_mul_of_pos_left ((records.filter flt).length + 1) hps
        omega)]
    exact List.drop_zero _
  · intro k
    simp [find_page, apply_ite]

/-- Claim C9 witness: three records, page size two, through C9_theorem. -/
theorem C9_witness :
    concat_pages ([studyA, studyB, studyC].filter (fun _ => true)) 2
      = [studyA, studyB, studyC].filter (fun _ => true) :=
  (C9_theorem [studyA, studyB, studyC] (fun _ => true) 2 (by decide)).1

/-- Claim C10, confirmed: specialize_activity_set_docs is total exactly
under the precondition that every activity_set record carries a type key: if
some record lacks it, the call raises an uncaught KeyError (doc["type"] is
outside the try block) instead of contributing a validation message; if all
records carry one, the call returns normally. -/
theorem C10_theorem (tc : List (String × String))
    (docs : List (String × List ARec)) (acts : List ARec)
    (hacts : dlookup docs "activity_set" = some acts) :
    ((∃ d, d ∈ acts ∧ d.type = none) →
      specialize_activity_set_docs tc docs = .error PyExc.keyError) ∧
    ((∀ d ∈ acts, (d.type).isSome = true) →
      ∃ r, specialize_activity_set_docs tc docs = .ok r) := by
  constructor
  · intro hbad
    unfold specialize_activity_set_docs
    simp only [hacts, specLoop_err tc acts docs [] hbad]
  · intro h
    unfold specialize_activity_set_docs
    obtain ⟨⟨docs2, ve⟩, hr⟩ := specLoop_total tc acts docs [] h
    simp only [hacts, hr]
    exact ⟨(ddel docs2 "activity_set", ve), rfl⟩

/-- Claim C10 witness: a record without a type key makes the call raise
KeyError, through C10_theorem. -/
theorem C10_witness :
    specialize_activity_set_docs tc0 docsBad = .error PyExc.keyError :=
  (C10_theorem tc0 docsBad [badRec0] rfl).1
    ⟨badRec0, List.mem_singleton.mpr rfl, rfl⟩
